import Mathlib

/-!
Verification of the `gpxl/ai-configs` code-index generators.

The repository contains two JavaScript code-index generators:
  * the budget-aware variant `ClaudeCode/code_index_generator.js`
    (class `CompactCodeIndexGenerator`), and
  * the comprehensive variant (class `NextJSIndexGenerator`).

This file gives a shallow embedding of both generators.  JavaScript strings
are modelled as Lean `String` values operated on through their character
lists; JavaScript numbers that hold token estimates are modelled as `ℚ`
(the arithmetic involved is exact on the inputs considered); timestamps are
modelled as `Nat` instants (milliseconds since the epoch; the ISO rendering
is external formatting and is never inspected by the code).  The external
Babel parser is abstracted: a source file carries the parse outcome
(`Option` of a traversal-ordered list of AST events) for each of the two
parser configurations used by the two variants, and the visitor logic of
each generator is embedded faithfully over those events.  Exceptions that
escape a per-file analysis are modelled with `Except Unit`.
-/

namespace CodeIndex

/-! ## JavaScript string primitives -/

/-- Substring test, `s.includes(pat)` on character lists. -/
def listHasInfix (s pat : List Char) : Bool :=
  pat.isPrefixOf s ||
    match s with
    | [] => false
    | _ :: rest => listHasInfix rest pat

/-- `s.includes(pat)`. -/
def jsIncludes (s pat : String) : Bool :=
  listHasInfix s.data pat.data

/-- `s.startsWith(pre)`. -/
def jsStartsWith (s pre : String) : Bool :=
  pre.data.isPrefixOf s.data

/-- `s.endsWith(suf)`. -/
def jsEndsWith (s suf : String) : Bool :=
  suf.data.isSuffixOf s.data

/-- `s.replace(pat, rep)` with a string pattern: replaces the first
occurrence only. -/
def replaceFirstList (pat rep : List Char) : List Char → List Char
  | [] => if pat.isPrefixOf ([] : List Char) then rep else []
  | c :: rest =>
    if pat.isPrefixOf (c :: rest) then rep ++ (c :: rest).drop pat.length
    else c :: replaceFirstList pat rep rest

/-- `s.replace(pat, rep)` on strings (first occurrence only). -/
def jsReplaceFirst (s pat rep : String) : String :=
  String.mk (replaceFirstList pat.data rep.data s.data)

/-- JavaScript `c.toUpperCase()` restricted to a single character. -/
def jsCharUpper (c : Char) : Char := c.toUpper

/-- `name[0] === name[0].toUpperCase()` for a non-empty `name`
(`false` on the empty string, which never reaches this test in source). -/
def jsUpperFirst (name : String) : Bool :=
  match name.data with
  | [] => false
  | c :: _ => c = jsCharUpper c

/-- JavaScript `a || d` for an optional string, where both `undefined`
and the empty string are falsy. -/
def jsOr (s : Option String) (d : String) : String :=
  match s with
  | some v => if v = "" then d else v
  | none => d

/-- The segment of `l` after its last `'/'` (Node's `path.basename`
without suffix stripping, for the paths that occur here). -/
def baseNameList (l : List Char) : List Char :=
  l.foldl (fun acc c => if c = '/' then [] else acc ++ [c]) []

/-- `path.basename(s)`. -/
def baseNameStr (s : String) : String :=
  String.mk (baseNameList s.data)

/-- The suffix of `l` starting at its last `'.'`, if any. -/
def lastDotSuffix : List Char → Option (List Char)
  | [] => none
  | c :: rest =>
    match lastDotSuffix rest with
    | some s => some s
    | none => if c = '.' then some (c :: rest) else none

/-- Node's `path.extname(s)`: from the last `'.'` of the basename to the
end, empty when there is no dot or the dot is the basename's first
character. -/
def extnameStr (s : String) : String :=
  let b := (baseNameStr s).data
  match lastDotSuffix b with
  | none => ""
  | some suf => if suf.length = b.length then "" else String.mk suf

/-- `path.basename(s, path.extname(s))`: the basename with its extension
removed. -/
def baseNameNoExt (s : String) : String :=
  let b := (baseNameStr s).data
  let e := (extnameStr s).data
  if e ≠ [] ∧ e.isSuffixOf b then String.mk (b.take (b.length - e.length))
  else String.mk b

/-- Lookup in a JavaScript-object-as-association-list: the first binding
of the key wins (lists built here keep at most one binding per key, and
merged objects put the overriding bindings first). -/
def jsGet {α : Type} (o : List (String × α)) (k : String) : Option α :=
  match o with
  | [] => none
  | (k', v) :: rest => if k' = k then some v else jsGet rest k

/-- The object spread `{...a, ...b}`: bindings of `b` override those of
`a` under `jsGet`. -/
def jsMerge {α : Type} (a b : List (String × α)) : List (String × α) :=
  b ++ a

/-- First-wins choice between two optional values (`a || b` on object
lookups). -/
def jsFirst {α : Type} (a b : Option α) : Option α :=
  match a with
  | some v => some v
  | none => b

/-- Dedupe with JavaScript `Set` insertion semantics: an element is kept
when it has not been seen yet, in insertion order (`[...new Set(xs)]`). -/
def jsDedupAux (seen : List String) : List String → List String
  | [] => []
  | x :: xs =>
    if x ∈ seen then jsDedupAux seen xs
    else x :: jsDedupAux (seen ++ [x]) xs

/-- `[...new Set(xs)]`. -/
def jsDedup (l : List String) : List String := jsDedupAux [] l

/-! ## JSON serialized-length model (for `estimateTokens`)

`estimateTokens(obj)` is `JSON.stringify(obj).length / 3`.  The functions
below compute the exact character count of `JSON.stringify` for the
analysis records the budget-aware generator serializes. -/

/-- Output length of one character inside a JSON string literal. -/
def jsonEscLen (c : Char) : Nat :=
  if c = '"' ∨ c = '\\' then 2
  else if c = '\n' ∨ c = '\r' ∨ c = '\t' ∨ c.val = 8 ∨ c.val = 12 then 2
  else if c.val < 32 then 6
  else 1

/-- Length of a JSON string literal (quotes included). -/
def jsonStrLen (s : String) : Nat :=
  2 + (s.data.map jsonEscLen).sum

/-- Length of a JSON array of string literals. -/
def jsonArrLen (xs : List String) : Nat :=
  2 + (xs.map jsonStrLen).sum + (xs.length - 1)

/-! ## Abstracted Babel AST

`traverse(ast, visitors)` visits nodes in a fixed order; a parsed file is
modelled as the list, in traversal order, of the AST events that the two
generators' visitors react to.  `exported` on a declaration records the
result of the `isExported` parent-walk, which is a property of the AST
context. -/

/-- A function parameter node as consumed by `getParamName`. -/
inductive JsParam
  | ident (name : String)
  | objPat (fields : List (Option String))
  | arrPat (elems : List (Option String))
  | rest (name : String)
  | other
deriving DecidableEq, Repr

/-- The `declaration` of an `ExportNamedDeclaration` node, as far as the
visitors inspect it. -/
inductive NamedDecl
  | fn (name : Option String)
  | vars (names : List String)
  | other
deriving DecidableEq, Repr

/-- One AST event in traversal order. -/
inductive AstNode
  | importDecl (source : String) (locals : List String)
  | exportDefault (decl : Option (Option String))
  | exportNamed (decl : Option NamedDecl) (specs : List String)
  | funcDecl (name : Option String) (params : List JsParam)
      (isAsync : Bool) (exported : Bool)
  | arrowVar (name : String) (params : List JsParam)
      (isAsync : Bool) (exported : Bool)
  | callExpr (callee : Option String)
deriving DecidableEq, Repr

/-- One source file as seen by the generators: its project-relative path,
its character count, its stat mtime, and the outcome of the external
Babel parse under each variant's parser options (`errorRecovery: true`
for the budget-aware variant, strict for the comprehensive one);
`none` is a parse exception. -/
structure SourceFile where
  path : String
  codeLength : Nat
  mtime : Nat
  parseRecover : Option (List AstNode)
  parseStrict : Option (List AstNode)
deriving DecidableEq, Repr

/-! ## Budget-aware variant: `CompactCodeIndexGenerator` -/

/-- `classifyFile` of the budget-aware variant. -/
def classifyFile (filePath : String) : String :=
  if jsIncludes filePath "/api/" then "api"
  else if jsIncludes filePath "/pages/" then "page"
  else if jsIncludes filePath "/app/" && jsIncludes filePath "/page." then "page"
  else if jsIncludes filePath "/app/" && jsIncludes filePath "/layout." then "layout"
  else if jsIncludes filePath "/components/" then "component"
  else if jsIncludes filePath "/hooks/" then "hook"
  else if jsIncludes filePath "/lib/" || jsIncludes filePath "/utils/" then "util"
  else "source"

/-- `classifyFunction` of the budget-aware variant.  `none` models the
TypeError raised when `name` passes `startsWith('use')` but has no
character at index 3 (`name[3].toUpperCase()` on `undefined`). -/
def classifyFunction (name : String) : Option String :=
  if name = "" then some "function"
  else if jsUpperFirst name then some "component"
  else if jsStartsWith name "use" then
    match name.data.get? 3 with
    | none => none
    | some c =>
      if c = jsCharUpper c then some "hook"
      else if name = "GET" ∨ name = "POST" ∨ name = "PUT" ∨ name = "DELETE"
          ∨ name = "PATCH" then some "handler"
      else some "function"
  else if name = "GET" ∨ name = "POST" ∨ name = "PUT" ∨ name = "DELETE"
      ∨ name = "PATCH" then some "handler"
  else some "function"

/-- The per-file `analysis` object of `analyzeFileCompact`. -/
structure CompactAnalysis where
  type : String
  exports : List String
  imports : List String
  features : List String
deriving DecidableEq, Repr

/-- One entry of the global `index.exports` map. -/
structure ExportEntry where
  name : String
  type : String
  params : Nat
deriving DecidableEq, Repr

/-- `getExportName` of the budget-aware variant. -/
def getExportName (decl : Option (Option String)) : String :=
  match decl with
  | some n => jsOr n "default"
  | none => "default"

/-- One visitor dispatch of `analyzeFileCompact`'s `traverse`.  The second
component accumulates `index.exports` entries; `Except.error` models an
exception escaping the visitor. -/
def compactStep (relativePath : String)
    (st : CompactAnalysis × List (String × ExportEntry)) (n : AstNode) :
    Except Unit (CompactAnalysis × List (String × ExportEntry)) :=
  let a := st.1
  let ex := st.2
  match n with
  | .importDecl source _ =>
    if !(jsStartsWith source ".") && !(jsStartsWith source "/") then
      .ok ({ a with imports := a.imports ++ [source] }, ex)
    else .ok (a, ex)
  | .exportDefault decl =>
    let name := getExportName decl
    if name ≠ "" then .ok ({ a with exports := a.exports ++ [name] }, ex)
    else .ok (a, ex)
  | .exportNamed _ specs =>
    .ok ({ a with exports := a.exports ++ specs }, ex)
  | .funcDecl name? params _ exported =>
    match name? with
    | none => .ok (a, ex)
    | some name =>
      if name ≠ "" ∧ exported then
        match classifyFunction name with
        | none => .error ()
        | some ty =>
          .ok (a, ex ++ [(relativePath ++ ":" ++ name,
            { name := name, type := ty, params := params.length })])
      else .ok (a, ex)
  | .arrowVar _ _ _ _ => .ok (a, ex)
  | .callExpr callee =>
    match callee with
    | some "getServerSideProps" =>
      .ok ({ a with features := a.features ++ ["SSR"] }, ex)
    | some "getStaticProps" =>
      .ok ({ a with features := a.features ++ ["SSG"] }, ex)
    | some "getStaticPaths" =>
      .ok ({ a with features := a.features ++ ["ISR"] }, ex)
    | _ => .ok (a, ex)

/-- The whole `traverse` of `analyzeFileCompact`.  On an exception the
`index.exports` entries accumulated before the throw are preserved. -/
def compactTraverse (relativePath : String) (ns : List AstNode)
    (a : CompactAnalysis) (ex : List (String × ExportEntry)) :
    Except Unit CompactAnalysis × List (String × ExportEntry) :=
  match ns with
  | [] => (.ok a, ex)
  | n :: rest =>
    match compactStep relativePath (a, ex) n with
    | .error _ => (.error (), ex)
    | .ok (a', ex') => compactTraverse relativePath rest a' ex'

/-- The fresh `analysis` object `analyzeFileCompact` builds before its
`traverse`. -/
def initCompactAnalysis (f : SourceFile) : CompactAnalysis :=
  { type := classifyFile f.path, exports := [], imports := [], features := [] }

/-- `analyzeFileCompact`.  First component: `.ok none` is the `return
null` paths (oversized file, parse failure), `.ok (some a)` a produced
FileRecord, `.error ()` an exception escaping to the caller.  Second
component: the `index.exports` entries the call added. -/
def analyzeFileCompact (f : SourceFile) :
    Except Unit (Option CompactAnalysis) × List (String × ExportEntry) :=
  if f.codeLength > 10000 then (.ok none, [])
  else
    match f.parseRecover with
    | none => (.ok none, [])
    | some ns =>
      match compactTraverse f.path ns (initCompactAnalysis f) [] with
      | (.error _, ex) => (.error (), ex)
      | (.ok a, ex) =>
        (.ok (some { a with imports := (jsDedup a.imports).take 10,
                            exports := a.exports.take 10 }), ex)

/-- `JSON.stringify(analysis).length` for a `CompactAnalysis` record. -/
def compactAnalysisJsonLen (a : CompactAnalysis) : Nat :=
  2 + jsonStrLen "type" + 1 + jsonStrLen a.type
    + 1 + jsonStrLen "exports" + 1 + jsonArrLen a.exports
    + 1 + jsonStrLen "imports" + 1 + jsonArrLen a.imports
    + 1 + jsonStrLen "features" + 1 + jsonArrLen a.features

/-- `estimateTokens` applied to a per-file analysis. -/
def estimateTokens (a : CompactAnalysis) : ℚ :=
  (compactAnalysisJsonLen a : ℚ) / 3

/-- `this.maxTokens`. -/
def maxTokens : ℚ := 35000

/-- The loop guard bound `this.maxTokens * 0.8`. -/
def budgetThreshold : ℚ := maxTokens * (4 / 5)

/-- Mutable state of `analyzeKeyFiles`: the running token estimate, the
accumulated `index.modules` records and the global `index.exports` map. -/
structure KFState where
  currentTokens : ℚ
  modules : List (String × CompactAnalysis)
  exportsIdx : List (String × ExportEntry)
deriving DecidableEq

/-- Initial state of a run. -/
def initKF : KFState := { currentTokens := 0, modules := [], exportsIdx := [] }

/-- One iteration of the `analyzeKeyFiles` loop body (after the budget
guard): analyze the file, swallow exceptions, record the analysis and the
token increment on success. -/
def kfStep (st : KFState) (f : SourceFile) : KFState :=
  match analyzeFileCompact f with
  | (.error _, ex) => { st with exportsIdx := st.exportsIdx ++ ex }
  | (.ok none, ex) => { st with exportsIdx := st.exportsIdx ++ ex }
  | (.ok (some a), ex) =>
    { currentTokens := st.currentTokens + estimateTokens a,
      modules := st.modules ++ [(f.path, a)],
      exportsIdx := st.exportsIdx ++ ex }

/-- The `for (const file of sourceFiles)` loop of `analyzeKeyFiles`, with
its `break` once `currentTokens > maxTokens * 0.8`. -/
def kfLoop (fs : List SourceFile) (st : KFState) : KFState :=
  match fs with
  | [] => st
  | f :: rest =>
    if st.currentTokens > budgetThreshold then st
    else kfLoop rest (kfStep st f)

/-- The candidate filter of `analyzeKeyFiles` applied to the walker's
output. -/
def kfKeep (f : SourceFile) : Bool :=
  !(jsIncludes f.path "node_modules") && !(jsIncludes f.path ".next")
    && !(jsIncludes f.path "dist/")

/-- `analyzeKeyFiles`: filter, truncate to the first 50 candidates, then
run the budgeted loop. -/
def analyzeKeyFiles (walked : List SourceFile) : KFState :=
  kfLoop ((walked.filter kfKeep).take 50) initKF

/-- Filesystem state consumed by the budget-aware generator: the walker's
enumeration of relevant files under the project root, the listing of each
existing critical directory (absent key = `fs.existsSync` false), the two
dependency maps of `package.json` (name to version), and the presence of
`tsconfig.json`. -/
structure Project where
  relevantFiles : List SourceFile
  dirFiles : List (String × List String)
  dependencies : List (String × String)
  devDependencies : List (String × String)
  hasTsconfig : Bool
deriving DecidableEq

/-- The fixed `criticalDirs` list of `analyzeProject`. -/
def criticalDirs : List String :=
  ["app", "src/app", "pages", "src/pages", "components", "src/components",
   "lib", "src/lib", "utils", "src/utils", "hooks", "src/hooks"]

/-- `inferPurpose`. -/
def inferPurpose (dirName : String) : String :=
  if dirName = "app" then "App Router pages and layouts"
  else if dirName = "pages" then "Pages Router routes"
  else if dirName = "components" then "Reusable UI components"
  else if dirName = "lib" then "Utility libraries"
  else if dirName = "utils" then "Helper functions"
  else if dirName = "hooks" then "Custom React hooks"
  else if dirName = "api" then "API route handlers"
  else "Source files"

/-- The record `analyzeDirCompact` builds for one directory. -/
structure DirInfo where
  files : Nat
  types : List (String × Nat)
  purpose : String
deriving DecidableEq

/-- Extension histogram accumulation (`types[ext] = (types[ext] || 0) + 1`
over a JavaScript object, insertion-ordered). -/
def histAdd (h : List (String × Nat)) (k : String) : List (String × Nat) :=
  match h with
  | [] => [(k, 1)]
  | (k', n) :: rest => if k' = k then (k', n + 1) :: rest else (k', n) :: histAdd rest k

/-- `analyzeDirCompact` over the directory's recursively collected
relevant file paths. -/
def analyzeDirCompact (dirPath : String) (files : List String) : DirInfo :=
  { files := files.length,
    types := files.foldl (fun h f => histAdd h (extnameStr f)) [],
    purpose := inferPurpose (baseNameStr dirPath) }

/-- `analyzeProject`: one `DirInfo` per existing critical directory with
at least one relevant file. -/
def analyzeProject (p : Project) : List (String × DirInfo) :=
  criticalDirs.foldl
    (fun acc dir =>
      match jsGet p.dirFiles dir with
      | none => acc
      | some files =>
        let info := analyzeDirCompact dir files
        if info.files > 0 then acc ++ [(dir, info)] else acc)
    []

/-- `hasPackage` (a dependency with a truthy version string in either
map). -/
def hasPackage (p : Project) (name : String) : Bool :=
  (match jsGet p.dependencies name with
   | some v => v ≠ ""
   | none => false) ||
  (match jsGet p.devDependencies name with
   | some v => v ≠ ""
   | none => false)

/-- `detectFramework` over `{...dependencies, ...devDependencies}`. -/
def detectFramework (p : Project) : String :=
  let deps := jsMerge p.dependencies p.devDependencies
  match jsGet deps "next" with
  | some v => if v = "" then fallbackReact p deps else "Next.js " ++ v
  | none => fallbackReact p deps
where
  fallbackReact (_ : Project) (deps : List (String × String)) : String :=
    match jsGet deps "react" with
    | some v => if v = "" then "JavaScript" else "React " ++ v
    | none => "JavaScript"

/-- `fs.existsSync` of a critical directory, via the listing map. -/
def dirExists (p : Project) (dir : String) : Bool :=
  (jsGet p.dirFiles dir).isSome

/-- `detectRouter`. -/
def detectRouter (p : Project) : String :=
  if dirExists p "app" then "app"
  else if dirExists p "src/app" then "app"
  else if dirExists p "pages" then "pages"
  else if dirExists p "src/pages" then "pages"
  else "unknown"

/-- `detectStateManagement`. -/
def detectStateManagement (p : Project) : String :=
  if hasPackage p "zustand" then "zustand"
  else if hasPackage p "@reduxjs/toolkit" then "redux-toolkit"
  else if hasPackage p "redux" then "redux"
  else if hasPackage p "jotai" then "jotai"
  else "context"

/-- `detectStyling`. -/
def detectStyling (p : Project) : String :=
  if hasPackage p "tailwindcss" then "tailwind"
  else if hasPackage p "styled-components" then "styled-components"
  else if hasPackage p "@emotion/react" then "emotion"
  else if hasPackage p "@mui/material" then "mui"
  else "css"

/-- `detectDataFetching`. -/
def detectDataFetching (p : Project) : String :=
  if hasPackage p "@tanstack/react-query" then "tanstack-query"
  else if hasPackage p "react-query" then "react-query"
  else if hasPackage p "swr" then "swr"
  else if hasPackage p "apollo-client" then "apollo"
  else "fetch"

/-- The `index.patterns` block. -/
structure CompactPatterns where
  router : String
  typescript : Bool
  tailwind : Bool
  testing : Bool
  stateManagement : String
  styling : String
  dataFetching : String
deriving DecidableEq

/-- `detectPatterns`. -/
def detectPatterns (p : Project) : CompactPatterns :=
  { router := detectRouter p,
    typescript := p.hasTsconfig,
    tailwind := hasPackage p "tailwindcss",
    testing := hasPackage p "jest" || hasPackage p "@testing-library/react",
    stateManagement := detectStateManagement p,
    styling := detectStyling p,
    dataFetching := detectDataFetching p }

/-- The `index` aggregate of the budget-aware generator. -/
structure CompactIndex where
  generated : Nat
  framework : String
  structureInfo : List (String × DirInfo)
  modules : List (String × CompactAnalysis)
  exportsIdx : List (String × ExportEntry)
  patterns : CompactPatterns
deriving DecidableEq

/-- `generate` of the budget-aware variant: structure analysis, budgeted
per-file analysis, pattern detection, in that order; `now` is the
generation instant captured in the constructor. -/
def generateCompact (p : Project) (now : Nat) : CompactIndex :=
  let kf := analyzeKeyFiles p.relevantFiles
  { generated := now,
    framework := detectFramework p,
    structureInfo := analyzeProject p,
    modules := kf.modules,
    exportsIdx := kf.exportsIdx,
    patterns := detectPatterns p }

/-! ## Comprehensive variant: `NextJSIndexGenerator` -/

/-- `getParamName`. -/
def getParamName (p : JsParam) : String :=
  match p with
  | .ident n => n
  | .objPat fields =>
    "\x7b" ++ String.intercalate ", " (fields.map (fun f => jsOr f "...")) ++ "\x7d"
  | .arrPat elems =>
    "[" ++ String.intercalate ", " (elems.map (fun e => jsOr e "...")) ++ "]"
  | .rest n => "..." ++ n
  | .other => "complex"

/-- `isReactComponent` (`name && name[0] === name[0].toUpperCase()`,
with `undefined` and `''` falsy). -/
def isReactComponent (name : Option String) : Bool :=
  match name with
  | none => false
  | some n => n ≠ "" && jsUpperFirst n

/-- `isCustomHook`.  `none` models the TypeError raised when the name is
exactly `"use"`: `name[3]` is `undefined` and `.toUpperCase()` throws. -/
def isCustomHook (name : Option String) : Option Bool :=
  match name with
  | none => some false
  | some n =>
    if n = "" then some false
    else if !(jsStartsWith n "use") then some false
    else
      match n.data.get? 3 with
      | none => none
      | some c => some (c = jsCharUpper c)

/-- `isApiRoute`. -/
def isApiRoute (filePath : String) (name : Option String) : Bool :=
  jsIncludes filePath "/api/" &&
    (match name with
     | some n => n = "GET" ∨ n = "POST" ∨ n = "PUT" ∨ n = "DELETE"
         ∨ n = "PATCH" ∨ n = "default"
     | none => false)

/-- One collected import (`{source, specifiers}`). -/
structure ImportRec where
  source : String
  specifiers : List String
deriving DecidableEq, Repr

/-- One collected function/component/hook descriptor. -/
structure FuncRec where
  name : Option String
  params : List String
  isAsync : Bool
  isExported : Bool
deriving DecidableEq, Repr

/-- The per-file `analysis` accumulator of the comprehensive variant. -/
structure NextAnalysis where
  imports : List ImportRec
  exports : List (String × String)
  functions : List FuncRec
  components : List FuncRec
  hooks : List FuncRec
  apiRoutes : List FuncRec
  nextjsFeatures : List String
deriving DecidableEq, Repr

/-- Empty accumulator. -/
def emptyNextAnalysis : NextAnalysis :=
  { imports := [], exports := [], functions := [], components := [],
    hooks := [], apiRoutes := [], nextjsFeatures := [] }

/-- The fixed `nextjsDataFetchingFns` list. -/
def isDataFetchingFn (n : String) : Bool :=
  n = "getServerSideProps" || n = "getStaticProps" || n = "getStaticPaths"

/-- One visitor dispatch of the comprehensive variant's `traverse`;
`Except.error` models the TypeError escaping `isCustomHook`. -/
def nextStep (filePath : String) (a : NextAnalysis) (n : AstNode) :
    Except Unit NextAnalysis :=
  match n with
  | .importDecl source locals =>
    .ok { a with imports := a.imports ++ [{ source := source, specifiers := locals }] }
  | .exportDefault decl =>
    match decl with
    | none => .ok a
    | some n? =>
      let name := jsOr n? "default"
      let a := { a with exports := a.exports ++ [(name, "default")] }
      if isDataFetchingFn name then
        .ok { a with nextjsFeatures := a.nextjsFeatures ++ [name] }
      else .ok a
  | .exportNamed decl specs =>
    let a :=
      match decl with
      | some (.fn fnName) =>
        if (match fnName with
            | some n => isDataFetchingFn n
            | none => false) then
          { a with nextjsFeatures := a.nextjsFeatures ++ [fnName.getD ""] }
        else a
      | some (.vars names) =>
        { a with nextjsFeatures :=
            a.nextjsFeatures ++ names.filter isDataFetchingFn }
      | some .other => a
      | none => a
    let a := specs.foldl
      (fun a s =>
        let a := { a with exports := a.exports ++ [(s, "named")] }
        if isDataFetchingFn s then
          { a with nextjsFeatures := a.nextjsFeatures ++ [s] }
        else a)
      a
    .ok a
  | .funcDecl name? params isAsync exported =>
    let func : FuncRec :=
      { name := name?, params := params.map getParamName,
        isAsync := isAsync, isExported := exported }
    if isReactComponent name? then
      .ok { a with components := a.components ++ [func] }
    else
      match isCustomHook name? with
      | none => .error ()
      | some true => .ok { a with hooks := a.hooks ++ [func] }
      | some false =>
        if isApiRoute filePath name? then
          .ok { a with apiRoutes := a.apiRoutes ++ [func] }
        else .ok { a with functions := a.functions ++ [func] }
  | .arrowVar name params isAsync exported =>
    if name = "" then .ok a
    else
      let func : FuncRec :=
        { name := some name, params := params.map getParamName,
          isAsync := isAsync, isExported := exported }
      if isReactComponent (some name) then
        .ok { a with components := a.components ++ [func] }
      else
        match isCustomHook (some name) with
        | none => .error ()
        | some true => .ok { a with hooks := a.hooks ++ [func] }
        | some false => .ok { a with functions := a.functions ++ [func] }
  | .callExpr callee =>
    match callee with
    | some "getServerSideProps" =>
      .ok { a with nextjsFeatures := a.nextjsFeatures ++ ["SSR"] }
    | some "getStaticProps" =>
      .ok { a with nextjsFeatures := a.nextjsFeatures ++ ["SSG"] }
    | some "getStaticPaths" =>
      .ok { a with nextjsFeatures := a.nextjsFeatures ++ ["Dynamic Routes"] }
    | _ => .ok a

/-- The whole `traverse` of the comprehensive `analyzeFile`. -/
def nextTraverse (filePath : String) (ns : List AstNode) (a : NextAnalysis) :
    Except Unit NextAnalysis :=
  match ns with
  | [] => .ok a
  | n :: rest =>
    match nextStep filePath a n with
    | .error _ => .error ()
    | .ok a' => nextTraverse filePath rest a'

/-- `inferFilePurpose`. -/
def inferFilePurpose (filePath : String) (a : NextAnalysis) : String :=
  let basename := baseNameNoExt filePath
  if basename = "layout" then "Layout component for route group"
  else if basename = "page" then "Page component for route"
  else if basename = "loading" then "Loading UI component"
  else if basename = "error" then "Error boundary component"
  else if basename = "not-found" then "Not found page component"
  else if jsIncludes filePath "/api/" then "API route handler"
  else if a.components.length > 0 then
    "React component (" ++
      String.intercalate ", " (a.components.map (fun c => c.name.getD "")) ++ ")"
  else if a.hooks.length > 0 then
    "Custom React hook (" ++
      String.intercalate ", " (a.hooks.map (fun h => h.name.getD "")) ++ ")"
  else if a.functions.length > 0 then
    "Utility functions (" ++
      String.intercalate ", " (a.functions.map (fun f => f.name.getD "")) ++ ")"
  else "Source file"

/-- `classifyFileType`. -/
def classifyFileType (filePath : String) (a : NextAnalysis) : String :=
  if jsIncludes filePath "/api/" then "api-route"
  else if jsIncludes filePath "/pages/" then "page"
  else if jsIncludes filePath "/app/" then "app-route"
  else if a.components.length > 0 then "component"
  else if a.hooks.length > 0 then "hook"
  else if jsIncludes filePath "/lib/" || jsIncludes filePath "/utils/" then "utility"
  else if jsEndsWith filePath ".css" || jsEndsWith filePath ".scss" then "styles"
  else "source"

/-- One `level2` module summary. -/
structure Level2Rec where
  purpose : String
  type : String
  imports : List String
  exports : List String
  complexity : Nat
  nextjsFeatures : List String
  lastModified : Nat
deriving DecidableEq, Repr

/-- One `level3` signature record. -/
structure Level3Rec where
  name : String
  signature : String
  type : String
  file : String
  exported : Bool
  isAsync : Bool
deriving DecidableEq, Repr

/-- The level-3 record for one captured descriptor, tagged with the list
it was pushed to (which is what the membership checks of the
comprehensive `classifyFunction` compute). -/
def level3Of (relativePath : String) (tag : String) (item : FuncRec) :
    Option (String × Level3Rec) :=
  match item.name with
  | some n =>
    if n = "" then none
    else some (relativePath ++ ":" ++ n,
      { name := n,
        signature := n ++ "(" ++ String.intercalate ", " item.params ++ ")"
          ++ (if item.isAsync then ": Promise" else ""),
        type := tag, file := relativePath, exported := item.isExported,
        isAsync := item.isAsync })
  | none => none

/-- The `level3` entries of one analyzed file, in the source's
concatenation order `functions, components, hooks, apiRoutes`. -/
def level3Entries (relativePath : String) (a : NextAnalysis) :
    List (String × Level3Rec) :=
  (a.functions.filterMap (level3Of relativePath "function"))
    ++ (a.components.filterMap (level3Of relativePath "component"))
    ++ (a.hooks.filterMap (level3Of relativePath "hook"))
    ++ (a.apiRoutes.filterMap (level3Of relativePath "api-handler"))

/-- `analyzeFile` of the comprehensive variant: `.ok none` is the
parse-error warn-and-return path, `.error ()` an exception escaping to
`analyzeSourceFiles`, `.ok (some _)` the level-2 record plus the level-3
entries. -/
def analyzeFile (f : SourceFile) :
    Except Unit (Option (Level2Rec × List (String × Level3Rec))) :=
  match f.parseStrict with
  | none => .ok none
  | some ns =>
    match nextTraverse f.path ns emptyNextAnalysis with
    | .error _ => .error ()
    | .ok a =>
      .ok (some
        ({ purpose := inferFilePurpose f.path a,
           type := classifyFileType f.path a,
           imports := a.imports.map (fun i => i.source),
           exports := a.exports.map (fun e => e.1),
           complexity := a.functions.length + a.components.length
             + a.hooks.length + a.apiRoutes.length,
           nextjsFeatures := a.nextjsFeatures,
           lastModified := f.mtime },
         level3Entries f.path a))

/-- The accumulated `level2`/`level3` maps of `analyzeSourceFiles`. -/
structure NextFilesState where
  level2 : List (String × Level2Rec)
  level3 : List (String × Level3Rec)
deriving DecidableEq

/-- The per-file step of `analyzeSourceFiles`: the `try`/`catch` swallows
the exception and the parse-error path adds nothing. -/
def nextFileStep (st : NextFilesState) (f : SourceFile) : NextFilesState :=
  match analyzeFile f with
  | .error _ => st
  | .ok none => st
  | .ok (some (l2, l3)) =>
    { level2 := st.level2 ++ [(f.path, l2)], level3 := st.level3 ++ l3 }

/-- The source-file filter of `analyzeSourceFiles`. -/
def nextRelevant (f : SourceFile) : Bool :=
  (extnameStr f.path = ".js" ∨ extnameStr f.path = ".jsx"
    ∨ extnameStr f.path = ".ts" ∨ extnameStr f.path = ".tsx")
  && !(jsIncludes f.path "node_modules") && !(jsIncludes f.path ".next")

/-- `analyzeSourceFiles` over the walker's enumeration. -/
def analyzeSourceFiles (walked : List SourceFile) : NextFilesState :=
  (walked.filter nextRelevant).foldl nextFileStep { level2 := [], level3 := [] }

/-! ### Level 1: project structure -/

/-- The `stat` of one file under a scanned directory: its path and its
mtime (`none` = the per-file `statSync` threw, mapped to `new Date(0)`). -/
structure FileStat where
  path : String
  mtime : Option Nat
deriving DecidableEq

/-- `getLastModified`: newest mtime of the directory's relevant files, or
the current instant when the directory holds none. -/
def getLastModified (files : List FileStat) (now : Nat) : Nat :=
  if files.isEmpty then now
  else (files.map (fun f => f.mtime.getD 0)).foldl max 0

/-- `inferFolderPurpose`. -/
def inferFolderPurpose (folderName : String) : String :=
  if folderName = "pages" then "Next.js Pages Router - file-based routing"
  else if folderName = "app" then "Next.js App Router - modern routing with layouts"
  else if folderName = "components" then "Reusable React components"
  else if folderName = "lib" then "Library functions and utilities"
  else if folderName = "utils" then "Helper functions and utilities"
  else if folderName = "hooks" then "Custom React hooks"
  else if folderName = "styles" then "CSS and styling files"
  else if folderName = "public" then "Static assets served at root"
  else if folderName = "api" then "API route handlers"
  else if folderName = "src" then "Main source code directory"
  else "Source code directory"

/-- `classifyDirectoryType`. -/
def classifyDirectoryType (dirName : String) : String :=
  if dirName = "pages" then "routing"
  else if dirName = "app" then "routing"
  else if dirName = "components" then "ui"
  else if dirName = "lib" then "utility"
  else if dirName = "utils" then "utility"
  else if dirName = "hooks" then "logic"
  else if dirName = "styles" then "styling"
  else if dirName = "public" then "static"
  else if dirName = "api" then "backend"
  else "source"

/-- One `level1` directory record. -/
structure Level1Rec where
  purpose : String
  fileCount : Nat
  extensions : List (String × Nat)
  lastModified : Nat
  type : String
deriving DecidableEq

/-- The `visited`-set dedup of `generateLevel1`: keep the first listing
per relative path. -/
def dedupByPath (dirs : List (String × List FileStat)) :
    List (String × List FileStat) :=
  match dirs with
  | [] => []
  | (k, v) :: rest =>
    (k, v) :: dedupByPath (rest.filter (fun d => d.1 ≠ k))
termination_by dirs.length
decreasing_by
  simp only [List.length_cons]
  exact Nat.lt_succ_of_le (List.length_filter_le _ _)

/-- `generateLevel1` over the recursively enumerated directories (each
with its recursively collected relevant files). -/
def generateLevel1 (dirs : List (String × List FileStat)) (now : Nat) :
    List (String × Level1Rec) :=
  (dedupByPath dirs).map (fun d =>
    (d.1,
     { purpose := inferFolderPurpose (baseNameStr d.1),
       fileCount := d.2.length,
       extensions := d.2.foldl (fun h f => histAdd h (extnameStr f.path)) [],
       lastModified := getLastModified d.2 now,
       type := classifyDirectoryType (baseNameStr d.1) }))

/-! ### Routes -/

/-- Strip one of the extensions `.js .jsx .ts .tsx` from the end
(the `route = filePath.replace(/\.(js|jsx|ts|tsx)$/, '')` step). -/
def stripJsExt (s : String) : String :=
  if jsEndsWith s ".tsx" then String.mk (s.data.take (s.data.length - 4))
  else if jsEndsWith s ".jsx" then String.mk (s.data.take (s.data.length - 4))
  else if jsEndsWith s ".ts" then String.mk (s.data.take (s.data.length - 3))
  else if jsEndsWith s ".js" then String.mk (s.data.take (s.data.length - 3))
  else s

/-- The global `/\[([^\]]+)\]/g → ':$1'` replacement: each maximal
bracket group with a non-empty body becomes a colon-prefixed name.  The
`pending` argument holds the characters read since an unmatched `'['`. -/
def bracketReplaceGo (pending : Option (List Char)) : List Char → List Char
  | [] =>
    match pending with
    | none => []
    | some p => '[' :: p.reverse
  | c :: rest =>
    match pending with
    | none =>
      if c = '[' then bracketReplaceGo (some []) rest
      else c :: bracketReplaceGo none rest
    | some p =>
      if c = ']' then
        if p = [] then '[' :: ']' :: bracketReplaceGo none rest
        else ':' :: p.reverse ++ bracketReplaceGo none rest
      else bracketReplaceGo (some (c :: p)) rest

/-- Bracket-to-colon dynamic-segment conversion on strings. -/
def bracketReplace (s : String) : String :=
  String.mk (bracketReplaceGo none s.data)

/-- The common tail of `filePathToRoute`: bracket conversion then a
leading slash. -/
def finishRoute (route : String) : String :=
  let r := bracketReplace route
  if jsStartsWith r "/" then r else "/" ++ r

/-- `filePathToRoute` (`none` = the function returned `null`). -/
def filePathToRoute (filePath routerType : String) : Option String :=
  let route := stripJsExt filePath
  if routerType = "pages" then
    if route = "index" then some "/"
    else
      let route := if jsEndsWith route "/index" then jsReplaceFirst route "/index" "" else route
      if jsStartsWith route "_" || jsIncludes route "/_" then none
      else some (finishRoute route)
  else if routerType = "app" then
    let route := if jsEndsWith route "/page" then jsReplaceFirst route "/page" "" else route
    if route = "page" then some "/"
    else if !(jsIncludes filePath "/page.") && !(jsIncludes filePath "/layout.")
        && !(jsIncludes filePath "/loading.") && !(jsIncludes filePath "/error.") then none
    else some (finishRoute route)
  else some (finishRoute route)

/-- `getRouteType`, applied to the file's path under the project. -/
def getRouteType (filePath : String) : String :=
  let basename := baseNameNoExt filePath
  if basename = "layout" then "layout"
  else if basename = "loading" then "loading"
  else if basename = "error" then "error"
  else if basename = "not-found" then "not-found"
  else if basename = "page" then "page"
  else if jsIncludes filePath "/api/" then "api"
  else "page"

/-- One extracted route record. -/
structure RouteRec where
  path : String
  file : String
  type : String
deriving DecidableEq

/-- `extractRoutes`: `dirName` is the routing root (as a project-relative
stand-in for the absolute directory) and `files` its recursively
collected files as root-relative paths. -/
def extractRoutes (dirName : String) (files : List String)
    (routerType : String) : List RouteRec :=
  files.filterMap (fun f =>
    (filePathToRoute f routerType).map (fun r =>
      { path := r, file := f, type := getRouteType (dirName ++ "/" ++ f) }))

/-- Route derivation for a project-relative file path under a routing
root, as `analyzeRoutes`/`extractRoutes` compose it: the path is made
root-relative (`path.relative(dir, file)`) and handed to
`filePathToRoute`. -/
def routeForFile (rootDir routerType projPath : String) : Option String :=
  if jsStartsWith projPath (rootDir ++ "/") then
    filePathToRoute
      (String.mk (projPath.data.drop (rootDir.data.length + 1))) routerType
  else none

/-! ### Patterns, merge, and `generate` -/

/-- The prior `codebase-index.json` on disk, as far as `saveIndex`
inspects it. -/
inductive PriorOutput
  | missing
  | unparseable
  | parsed (level4 : Option (List (String × String)))
deriving DecidableEq

/-- The `previousLevel4` recovery: a missing file, a parse error, or an
absent/non-object `level4` field all yield the empty map. -/
def loadPriorLevel4 (prior : PriorOutput) : List (String × String) :=
  match prior with
  | .missing => []
  | .unparseable => []
  | .parsed none => []
  | .parsed (some l4) => l4

/-- The `saveIndex` merge step:
`this.index.level4 = { ...previousLevel4, ...this.index.level4 }`. -/
def saveIndexLevel4 (prior : PriorOutput) (current : List (String × String)) :
    List (String × String) :=
  jsMerge (loadPriorLevel4 prior) current

/-- The `architectural.patterns` block of the comprehensive variant. -/
structure NextPatterns where
  pagesRouter : Bool
  appRouter : Bool
  srcDirectory : Bool
  typescript : Bool
  tailwind : Bool
  styledComponents : Bool
  emotion : Bool
  mui : Bool
  prisma : Bool
  trpc : Bool
  nextAuth : Bool
deriving DecidableEq

/-- Filesystem state consumed by the comprehensive generator.  The
`pages`/`srcPages`/`app`/`srcApp` listings are root-relative file paths
(`none` = the directory does not exist); `cssHasTailwindDirective`
abstracts the `@tailwind`-in-stylesheet scan of `detectTailwind`. -/
structure NextProject where
  files : List SourceFile
  level1Dirs : List (String × List FileStat)
  dependencies : List (String × String)
  devDependencies : List (String × String)
  peerDependencies : List (String × String)
  srcExists : Bool
  tsconfigExists : Bool
  nextEnvExists : Bool
  tailwindConfigExists : Bool
  cssHasTailwindDirective : Bool
  pagesListing : Option (List String)
  srcPagesListing : Option (List String)
  appListing : Option (List String)
  srcAppListing : Option (List String)
  priorOutput : PriorOutput
deriving DecidableEq

/-- `hasPackage` of the comprehensive variant (checks
`peerDependencies` too). -/
def hasPackageNext (p : NextProject) (name : String) : Bool :=
  (match jsGet p.dependencies name with
   | some v => v ≠ ""
   | none => false) ||
  (match jsGet p.devDependencies name with
   | some v => v ≠ ""
   | none => false) ||
  (match jsGet p.peerDependencies name with
   | some v => v ≠ ""
   | none => false)

/-- `detectNextJSVersion`. -/
def detectNextJSVersion (p : NextProject) : String :=
  match jsGet p.dependencies "next" with
  | some v => if v = "" then nextFromDev p else v
  | none => nextFromDev p
where
  nextFromDev (p : NextProject) : String :=
    match jsGet p.devDependencies "next" with
    | some v => if v = "" then "unknown" else v
    | none => "unknown"

/-- The js-extension test used by the router detectors. -/
def hasJsExt (f : String) : Bool :=
  extnameStr f = ".js" || extnameStr f = ".jsx"
    || extnameStr f = ".ts" || extnameStr f = ".tsx"

/-- `detectPagesRouter`: some pages directory holds a non-underscore
page file. -/
def detectPagesRouter (p : NextProject) : Bool :=
  [p.pagesListing, p.srcPagesListing].any (fun o =>
    match o with
    | none => false
    | some files => files.any (fun f =>
        !(jsStartsWith (baseNameNoExt f) "_") && hasJsExt f))

/-- `detectAppRouter`: some app directory holds a special-basename
file. -/
def detectAppRouter (p : NextProject) : Bool :=
  [p.appListing, p.srcAppListing].any (fun o =>
    match o with
    | none => false
    | some files => files.any (fun f =>
        (baseNameNoExt f = "page" ∨ baseNameNoExt f = "layout"
          ∨ baseNameNoExt f = "loading" ∨ baseNameNoExt f = "error"
          ∨ baseNameNoExt f = "not-found" ∨ baseNameNoExt f = "template")
        && hasJsExt f))

/-- `detectTypeScript`. -/
def detectTypeScript (p : NextProject) : Bool :=
  p.tsconfigExists || p.nextEnvExists || hasPackageNext p "typescript"
    || hasPackageNext p "@types/node"

/-- `detectTailwind`. -/
def detectTailwind (p : NextProject) : Bool :=
  if p.tailwindConfigExists then true
  else if hasPackageNext p "tailwindcss" then true
  else p.cssHasTailwindDirective

/-- `analyzeArchitecturalPatterns`. -/
def nextPatterns (p : NextProject) : NextPatterns :=
  { pagesRouter := detectPagesRouter p,
    appRouter := detectAppRouter p,
    srcDirectory := p.srcExists,
    typescript := detectTypeScript p,
    tailwind := detectTailwind p,
    styledComponents := hasPackageNext p "styled-components",
    emotion := hasPackageNext p "@emotion/react" || hasPackageNext p "@emotion/styled",
    mui := hasPackageNext p "@mui/material" || hasPackageNext p "@material-ui/core",
    prisma := hasPackageNext p "prisma" || hasPackageNext p "@prisma/client",
    trpc := hasPackageNext p "@trpc/server" || hasPackageNext p "@trpc/client",
    nextAuth := hasPackageNext p "next-auth" || hasPackageNext p "@auth/nextjs" }

/-- `analyzeRoutes`: the plain directory takes precedence over the `src`
one for each router style. -/
def analyzeRoutes (p : NextProject) :
    Option (List RouteRec) × Option (List RouteRec) :=
  (match p.pagesListing with
   | some files => some (extractRoutes "pages" files "pages")
   | none =>
     match p.srcPagesListing with
     | some files => some (extractRoutes "src/pages" files "pages")
     | none => none,
   match p.appListing with
   | some files => some (extractRoutes "app" files "app")
   | none =>
     match p.srcAppListing with
     | some files => some (extractRoutes "src/app" files "app")
     | none => none)

/-- The `index` aggregate of the comprehensive generator, as saved. -/
structure NextIndex where
  generatedAt : Nat
  nextjsVersion : String
  level1 : List (String × Level1Rec)
  level2 : List (String × Level2Rec)
  level3 : List (String × Level3Rec)
  level4 : List (String × String)
  patterns : NextPatterns
  routesPages : Option (List RouteRec)
  routesApp : Option (List RouteRec)
deriving DecidableEq

/-- `generate` of the comprehensive variant; `this.index.level4` is empty
during a generation run (it is populated only on demand), so the saved
`level4` is the merge of the prior map with the empty current map. -/
def generateNext (p : NextProject) (now : Nat) : NextIndex :=
  let fileState := analyzeSourceFiles p.files
  let routes := analyzeRoutes p
  { generatedAt := now,
    nextjsVersion := detectNextJSVersion p,
    level1 := generateLevel1 p.level1Dirs now,
    level2 := fileState.level2,
    level3 := fileState.level3,
    level4 := saveIndexLevel4 p.priorOutput [],
    patterns := nextPatterns p,
    routesPages := routes.1,
    routesApp := routes.2 }

/-! ## Derived notions used in the statements -/

/-- The import filter of the budget-aware `ImportDeclaration` visitor:
keep only module sources that are not relative or absolute paths. -/
def importKeep (s : String) : Bool :=
  !(jsStartsWith s ".") && !(jsStartsWith s "/")

/-- The import sources appearing in a traversal, in order. -/
def importSourcesOf (ns : List AstNode) : List String :=
  ns.filterMap (fun n =>
    match n with
    | .importDecl s _ => some s
    | _ => none)

/-- The import sources declared by a file (empty on parse failure). -/
def compactImportSources (f : SourceFile) : List String :=
  match f.parseRecover with
  | some ns => importSourcesOf ns
  | none => []

/-- A `Level1Rec` with its `lastModified` timestamp erased, for stating
timestamp-insensitive equality of directory records. -/
def level1NoTime (r : Level1Rec) : String × Nat × List (String × Nat) × String :=
  (r.purpose, r.fileCount, r.extensions, r.type)

/-! ## Concrete inputs for witnesses and counterexamples -/

/-- An exported `function GET` declared in a file under an API path. -/
def apiGetFile : SourceFile :=
  { path := "pages/api/users.ts", codeLength := 120, mtime := 0,
    parseRecover := some [.funcDecl (some "GET") [] false true],
    parseStrict := some [.funcDecl (some "GET") [] false true] }

/-- The level-2 record the comprehensive variant produces for
`apiGetFile`. -/
def apiGetLevel2 : Level2Rec :=
  { purpose := "API route handler", type := "api-route", imports := [],
    exports := [], complexity := 1, nextjsFeatures := [], lastModified := 0 }

/-- The level-3 record the comprehensive variant produces for the `GET`
declaration of `apiGetFile`. -/
def apiGetLevel3 : Level3Rec :=
  { name := "GET", signature := "GET()", type := "component",
    file := "pages/api/users.ts", exported := true, isAsync := false }

/-- A file declaring eleven imports. -/
def capCexFile : SourceFile :=
  { path := "lib/many.ts", codeLength := 500, mtime := 0,
    parseRecover := some (List.replicate 11 (.importDecl "react" [])),
    parseStrict := some (List.replicate 11 (.importDecl "react" [])) }

/-- The level-2 record the comprehensive variant produces for
`capCexFile`: its `imports` has eleven entries. -/
def capCexRec : Level2Rec :=
  { purpose := "Source file", type := "source",
    imports := List.replicate 11 "react", exports := [], complexity := 0,
    nextjsFeatures := [], lastModified := 0 }

/-- A small file with one external and one relative import. -/
def capWitFile : SourceFile :=
  { path := "lib/two.ts", codeLength := 80, mtime := 0,
    parseRecover := some [.importDecl "react" [], .importDecl "./x" []],
    parseStrict := some [.importDecl "react" [], .importDecl "./x" []] }

/-- The analysis the budget-aware variant produces for `capWitFile`. -/
def capWitAnalysis : CompactAnalysis :=
  { type := "source", exports := [], imports := ["react"], features := [] }

/-- An import source long enough that one analysis exceeds the token
budget threshold on its own. -/
def bigImport : String := String.mk (List.replicate 84200 'a')

/-- A file whose single import is `bigImport`. -/
def fBig : SourceFile :=
  { path := "lib/big.ts", codeLength := 100, mtime := 0,
    parseRecover := some [.importDecl bigImport []],
    parseStrict := some [.importDecl bigImport []] }

/-- The analysis the budget-aware variant produces for `fBig`. -/
def bigAnalysis : CompactAnalysis :=
  { type := "source", exports := [], imports := [bigImport], features := [] }

/-- A small well-formed file enumerated after `fBig`. -/
def fSmall : SourceFile :=
  { path := "lib/small.ts", codeLength := 50, mtime := 0,
    parseRecover := some [], parseStrict := some [] }

/-- A project whose walker enumerates `fBig` then `fSmall`. -/
def budgetProject : Project :=
  { relevantFiles := [fBig, fSmall], dirFiles := [], dependencies := [],
    devDependencies := [], hasTsconfig := false }

/-- A file with a relative and an external import, for the comprehensive
variant. -/
def relCexFile : SourceFile :=
  { path := "components/Card.tsx", codeLength := 300, mtime := 0,
    parseRecover := some [.importDecl "./helper" [], .importDecl "react" []],
    parseStrict := some [.importDecl "./helper" [], .importDecl "react" []] }

/-- The level-2 record the comprehensive variant produces for
`relCexFile`: the relative source `./helper` is retained. -/
def relCexRec : Level2Rec :=
  { purpose := "Source file", type := "source",
    imports := ["./helper", "react"], exports := [], complexity := 0,
    nextjsFeatures := [], lastModified := 0 }

/-- A file with duplicate, relative and absolute imports, for the
budget-aware filter. -/
def filterWitFile : SourceFile :=
  { path := "lib/imports.ts", codeLength := 200, mtime := 0,
    parseRecover := some [.importDecl "react" [], .importDecl "./x" [],
      .importDecl "/abs" [], .importDecl "lodash" [], .importDecl "react" []],
    parseStrict := some [] }

/-- The analysis the budget-aware variant produces for `filterWitFile`. -/
def filterWitAnalysis : CompactAnalysis :=
  { type := "source", exports := [], imports := ["react", "lodash"],
    features := [] }

/-- A file of 10001 characters that parses fine. -/
def sizeCexFile : SourceFile :=
  { path := "lib/large.ts", codeLength := 10001, mtime := 0,
    parseRecover := some [], parseStrict := some [] }

/-- The level-2 record the comprehensive variant still produces for the
oversized `sizeCexFile`. -/
def sizeCexRec : Level2Rec :=
  { purpose := "Source file", type := "source", imports := [], exports := [],
    complexity := 0, nextjsFeatures := [], lastModified := 0 }

/-- A file whose only declaration is the arrow-function variable
`const use = ...`. -/
def useArrowFile : SourceFile :=
  { path := "lib/use.ts", codeLength := 60, mtime := 0,
    parseRecover := some [.arrowVar "use" [] false true],
    parseStrict := some [.arrowVar "use" [] false true] }

/-- The analysis the budget-aware variant (which has no
`ArrowFunctionExpression` visitor) produces for `useArrowFile`. -/
def useArrowAnalysis : CompactAnalysis :=
  { type := "source", exports := [], imports := [], features := [] }

/-- A file declaring an exported `function use() {}`. -/
def useDeclFile : SourceFile :=
  { path := "lib/useDecl.ts", codeLength := 70, mtime := 0,
    parseRecover := some [.funcDecl (some "use") [] false true],
    parseStrict := some [.funcDecl (some "use") [] false true] }

deriving instance DecidableEq for Except

/-! ## Helper lemmas -/

theorem jsGet_append {α : Type} (xs ys : List (String × α)) (k : String) :
    jsGet (xs ++ ys) k = jsFirst (jsGet xs k) (jsGet ys k) := by
  induction xs with
  | nil => simp [jsGet, jsFirst]
  | cons hd tl ih =>
    obtain ⟨k', v⟩ := hd
    by_cases hk : k' = k
    · simp [jsGet, jsFirst, hk]
    · simp [jsGet, hk, ih]

theorem kfLoop_stuck (ys : List SourceFile) (st : KFState)
    (h : st.currentTokens > budgetThreshold) : kfLoop ys st = st := by
  cases ys with
  | nil => rfl
  | cons f rest => simp [kfLoop, h]

theorem kfLoop_append (xs ys : List SourceFile) (st : KFState) :
    kfLoop (xs ++ ys) st = kfLoop ys (kfLoop xs st) := by
  induction xs generalizing st with
  | nil => rfl
  | cons f rest ih =>
    by_cases h : st.currentTokens > budgetThreshold
    · simp [kfLoop, h, kfLoop_stuck ys st h]
    · simp [kfLoop, h, ih]

theorem kfStep_modules_len (st : KFState) (f : SourceFile) :
    (kfStep st f).modules.length ≤ st.modules.length + 1 := by
  unfold kfStep
  rcases h : analyzeFileCompact f with ⟨r, ex⟩
  rcases r with e | o
  · simp
  · rcases o with _ | a <;> simp

theorem kfLoop_modules_len (fs : List SourceFile) (st : KFState) :
    (kfLoop fs st).modules.length ≤ st.modules.length + fs.length := by
  induction fs generalizing st with
  | nil => simp [kfLoop]
  | cons f rest ih =>
    by_cases h : st.currentTokens > budgetThreshold
    · simp [kfLoop, h]
    · simp only [kfLoop, h, if_false, List.length_cons]
      calc (kfLoop rest (kfStep st f)).modules.length
          ≤ (kfStep st f).modules.length + rest.length := ih _
        _ ≤ st.modules.length + 1 + rest.length :=
            Nat.add_le_add_right (kfStep_modules_len st f) _
        _ = st.modules.length + (rest.length + 1) := by omega

theorem mem_jsDedupAux (l : List String) :
    ∀ (seen : List String) (s : String),
      s ∈ jsDedupAux seen l ↔ s ∈ l ∧ s ∉ seen := by
  induction l with
  | nil => intro seen s; simp [jsDedupAux]
  | cons x xs ih =>
    intro seen s
    by_cases hx : x ∈ seen
    · rw [jsDedupAux, if_pos hx, ih]
      by_cases hsx : s = x
      · subst hsx
        simp [hx]
      · simp [hsx]
    · rw [jsDedupAux, if_neg hx]
      by_cases hsx : s = x
      · subst hsx
        simp [hx]
      · simp only [List.mem_cons, hsx, false_or, ih, List.mem_append,
          List.mem_singleton]
        tauto

theorem mem_jsDedup (l : List String) (s : String) :
    s ∈ jsDedup l ↔ s ∈ l := by
  rw [jsDedup, mem_jsDedupAux]
  simp

/-- The contribution of one AST event to the compact `imports` list. -/
def importContrib (n : AstNode) : List String :=
  match n with
  | .importDecl s _ => if importKeep s then [s] else []
  | _ => []

theorem compactStep_ok_imports {p : String} {a : CompactAnalysis}
    {ex : List (String × ExportEntry)} {n : AstNode} {a' : CompactAnalysis}
    {ex' : List (String × ExportEntry)}
    (h : compactStep p (a, ex) n = .ok (a', ex')) :
    a'.imports = a.imports ++ importContrib n := by
  cases n with
  | importDecl s locals =>
    simp only [compactStep, importContrib, importKeep] at h ⊢
    by_cases hk : (!jsStartsWith s "." && !jsStartsWith s "/") = true
    · rw [if_pos hk] at h
      rw [if_pos hk]
      cases h
      simp
    · rw [if_neg hk] at h
      rw [if_neg hk]
      cases h
      simp
  | exportDefault decl =>
    simp only [compactStep, importContrib] at h ⊢
    split at h <;> (cases h; simp)
  | exportNamed decl specs =>
    simp only [compactStep, importContrib] at h ⊢
    cases h
    simp
  | funcDecl name? params isAsync exported =>
    rcases name? with _ | name
    · simp only [compactStep, importContrib] at h ⊢
      cases h
      simp
    · simp only [compactStep, importContrib] at h ⊢
      split at h
      · rcases hcf : classifyFunction name with _ | ty
        · rw [hcf] at h
          exact absurd h (by simp)
        · rw [hcf] at h
          cases h
          simp
      · cases h
        simp
  | arrowVar name params isAsync exported =>
    simp only [compactStep, importContrib] at h ⊢
    cases h
    simp
  | callExpr callee =>
    simp only [compactStep, importContrib] at h ⊢
    split at h <;> (cases h; simp)

theorem compactTraverse_ok_imports {p : String} {ns : List AstNode}
    {a : CompactAnalysis} {ex : List (String × ExportEntry)}
    {a₁ : CompactAnalysis} {ex₁ : List (String × ExportEntry)}
    (h : compactTraverse p ns a ex = (.ok a₁, ex₁)) :
    a₁.imports = a.imports ++ (importSourcesOf ns).filter importKeep := by
  induction ns generalizing a ex with
  | nil =>
    simp only [compactTraverse] at h
    cases h
    simp [importSourcesOf]
  | cons n rest ih =>
    simp only [compactTraverse] at h
    rcases hstep : compactStep p (a, ex) n with e | ⟨a', ex'⟩
    · rw [hstep] at h
      exact absurd h (by simp)
    · rw [hstep] at h
      have hrest := ih h
      rw [hrest, compactStep_ok_imports hstep, List.append_assoc]
      congr 1
      cases n with
      | importDecl s locals =>
        simp only [importContrib, importSourcesOf, List.filterMap_cons]
        by_cases hk : importKeep s = true
        · simp [hk, importSourcesOf]
        · simp [List.filter_cons, hk, importSourcesOf]
      | exportDefault decl => simp [importContrib, importSourcesOf, List.filterMap_cons]
      | exportNamed decl specs => simp [importContrib, importSourcesOf, List.filterMap_cons]
      | funcDecl name? params isAsync exported =>
        simp [importContrib, importSourcesOf, List.filterMap_cons]
      | arrowVar name params isAsync exported =>
        simp [importContrib, importSourcesOf, List.filterMap_cons]
      | callExpr callee => simp [importContrib, importSourcesOf, List.filterMap_cons]

theorem analyzeFileCompact_some {f : SourceFile} {a : CompactAnalysis}
    {ex : List (String × ExportEntry)}
    (h : analyzeFileCompact f = (.ok (some a), ex)) :
    ∃ ns a₁, f.parseRecover = some ns ∧
      compactTraverse f.path ns (initCompactAnalysis f) [] = (.ok a₁, ex) ∧
      a = { a₁ with imports := (jsDedup a₁.imports).take 10,
                    exports := a₁.exports.take 10 } := by
  unfold analyzeFileCompact at h
  split at h
  · exact absurd h (by simp)
  · rcases hp : f.parseRecover with _ | ns
    · simp only [hp] at h
      exact absurd h (by simp)
    · rcases ht : compactTraverse f.path ns (initCompactAnalysis f) [] with ⟨r, ex'⟩
      rcases r with e | a₁
      · simp only [hp, ht] at h
        exact absurd h (by simp)
      · simp only [hp, ht, Prod.mk.injEq, Except.ok.injEq, Option.some.injEq] at h
        refine ⟨ns, a₁, rfl, ?_, h.1.symm⟩
        rw [ht, h.2]

theorem compactStep_use_error (p : String) (a : CompactAnalysis)
    (ex : List (String × ExportEntry)) (ps : List JsParam) (async : Bool) :
    compactStep p (a, ex) (.funcDecl (some "use") ps async true) =
      Except.error () :=
  rfl

theorem compactTraverse_error_of_mem (p : String) (n : AstNode)
    (herr : ∀ a ex, compactStep p (a, ex) n = Except.error ()) :
    ∀ ns : List AstNode, n ∈ ns → ∀ a ex,
      (compactTraverse p ns a ex).1 = Except.error () := by
  intro ns
  induction ns with
  | nil => intro hmem; simp at hmem
  | cons m rest ih =>
    intro hmem a ex
    rcases List.mem_cons.mp hmem with heq | hmem'
    · subst heq
      simp only [compactTraverse, herr a ex]
    · simp only [compactTraverse]
      rcases hstep : compactStep p (a, ex) m with e | ⟨a', ex'⟩
      · rfl
      · exact ih hmem' a' ex'

theorem analyzeFileCompact_error_of {f : SourceFile} {ns : List AstNode}
    (hlen : ¬ f.codeLength > 10000) (hp : f.parseRecover = some ns)
    (htrav : (compactTraverse f.path ns (initCompactAnalysis f) []).1 =
      Except.error ()) :
    (analyzeFileCompact f).1 = Except.error () := by
  unfold analyzeFileCompact
  rw [if_neg hlen]
  simp only [hp]
  rcases ht : compactTraverse f.path ns (initCompactAnalysis f) [] with ⟨r, ex⟩
  rw [ht] at htrav
  rcases r with e | a₁
  · rfl
  · exact absurd htrav (by simp)

theorem kfStep_of_error {f : SourceFile}
    (h : (analyzeFileCompact f).1 = Except.error ()) :
    ∀ st : KFState, (kfStep st f).modules = st.modules := by
  intro st
  unfold kfStep
  rcases ha : analyzeFileCompact f with ⟨r, ex⟩
  have hr : r = Except.error () := by rw [ha] at h; exact h
  subst hr
  rfl

theorem nextStep_use_funcDecl_error (p : String) (a : NextAnalysis)
    (ps : List JsParam) (async exp : Bool) :
    nextStep p a (.funcDecl (some "use") ps async exp) = Except.error () :=
  rfl

theorem nextStep_use_arrowVar_error (p : String) (a : NextAnalysis)
    (ps : List JsParam) (async exp : Bool) :
    nextStep p a (.arrowVar "use" ps async exp) = Except.error () :=
  rfl

theorem nextTraverse_error_of_mem (p : String) (n : AstNode)
    (herr : ∀ a, nextStep p a n = Except.error ()) :
    ∀ ns : List AstNode, n ∈ ns → ∀ a,
      nextTraverse p ns a = Except.error () := by
  intro ns
  induction ns with
  | nil => intro hmem; simp at hmem
  | cons m rest ih =>
    intro hmem a
    rcases List.mem_cons.mp hmem with heq | hmem'
    · subst heq
      simp only [nextTraverse, herr a]
    · simp only [nextTraverse]
      rcases hstep : nextStep p a m with e | a'
      · rfl
      · exact ih hmem' a'

theorem analyzeFile_error_of {f : SourceFile} {ns : List AstNode}
    (hp : f.parseStrict = some ns)
    (htrav : nextTraverse f.path ns emptyNextAnalysis = Except.error ()) :
    analyzeFile f = Except.error () := by
  unfold analyzeFile
  simp only [hp]
  rw [htrav]

theorem nextFileStep_of_error {f : SourceFile}
    (h : analyzeFile f = Except.error ()) :
    ∀ st : NextFilesState, (nextFileStep st f).level2 = st.level2 := by
  intro st
  unfold nextFileStep
  rw [h]

/-! ## Token-estimate facts for the budget witness -/

/-- The analysis record of a file whose one import source is `n`
letters `a`. -/
def replAnalysis (n : Nat) : CompactAnalysis :=
  { type := "source", exports := [],
    imports := [String.mk (List.replicate n 'a')], features := [] }

theorem jsonStrLen_repl (n : Nat) :
    jsonStrLen (String.mk (List.replicate n 'a')) = 2 + n := by
  unfold jsonStrLen
  show 2 + ((List.replicate n 'a').map jsonEscLen).sum = 2 + n
  rw [List.map_replicate, show jsonEscLen 'a' = 1 from rfl, List.sum_replicate,
    smul_eq_mul, Nat.mul_one]

theorem jsonArrLen_single (s : String) : jsonArrLen [s] = 2 + jsonStrLen s := by
  simp [jsonArrLen]

theorem compactAnalysisJsonLen_repl (n : Nat) :
    compactAnalysisJsonLen (replAnalysis n) = 59 + n := by
  show 2 + jsonStrLen "type" + 1 + jsonStrLen "source"
    + 1 + jsonStrLen "exports" + 1 + jsonArrLen []
    + 1 + jsonStrLen "imports" + 1 + jsonArrLen [String.mk (List.replicate n 'a')]
    + 1 + jsonStrLen "features" + 1 + jsonArrLen [] = 59 + n
  rw [jsonArrLen_single, jsonStrLen_repl,
    show jsonStrLen "type" = 6 from rfl, show jsonStrLen "source" = 8 from rfl,
    show jsonStrLen "exports" = 9 from rfl, show jsonStrLen "imports" = 9 from rfl,
    show jsonStrLen "features" = 10 from rfl, show jsonArrLen [] = 2 from rfl]
  omega

theorem bigAnalysisJsonLen : compactAnalysisJsonLen bigAnalysis = 84259 :=
  compactAnalysisJsonLen_repl 84200

theorem bigAnalysisTokens : estimateTokens bigAnalysis = (84259 : ℚ) / 3 := by
  unfold estimateTokens
  rw [bigAnalysisJsonLen]
  norm_num

theorem bigLoopTokens :
    (kfLoop [fBig] initKF).currentTokens > budgetThreshold := by
  have hA : analyzeFileCompact fBig = (Except.ok (some bigAnalysis), []) := rfl
  have h2 : kfLoop [fBig] initKF = kfStep initKF fBig := by
    simp only [kfLoop]
    rw [if_neg (by norm_num [initKF, budgetThreshold, maxTokens])]
  have h3 : kfStep initKF fBig =
      { currentTokens := initKF.currentTokens + estimateTokens bigAnalysis,
        modules := initKF.modules ++ [(fBig.path, bigAnalysis)],
        exportsIdx := initKF.exportsIdx ++ [] } := by
    unfold kfStep
    rw [hA]
  rw [h2, h3]
  show initKF.currentTokens + estimateTokens bigAnalysis > budgetThreshold
  rw [bigAnalysisTokens]
  norm_num [initKF, budgetThreshold, maxTokens]

/-! ## The claims -/

/-- Claim C1: the spec says symbol classification checks the api-handler
rule (API path segment plus HTTP-verb name) before the upper-case-initial
component rule, so that a function named `GET` in an API-path file is
classified api-handler.  The code checks the component rule first in both
variants: `GET` in `pages/api/users.ts` lands in `components` and its
level-3 `type` is `component` (the comprehensive variant), and the
budget-aware `classifyFunction`/`index.exports` entry says `component`
too, even though `isApiRoute` would have matched. -/
theorem claim_c1_api_handler_precedence :
    classifyFunction "GET" = some "component" ∧
    isApiRoute "pages/api/users.ts" (some "GET") = true ∧
    analyzeFile apiGetFile =
      Except.ok (some (apiGetLevel2, [("pages/api/users.ts:GET", apiGetLevel3)])) ∧
    apiGetLevel3.type = "component" ∧
    (analyzeFileCompact apiGetFile).2 =
      [("pages/api/users.ts:GET",
        { name := "GET", type := "component", params := 0 })] :=
  ⟨rfl, rfl, rfl, rfl, rfl⟩

/-- Claim C2 (amended): the 10-entry caps on `imports` and `exports` hold
for every FileRecord produced by the budget-aware variant; the
comprehensive variant applies no cap. -/
theorem claim_c2_caps (f : SourceFile) (a : CompactAnalysis)
    (ex : List (String × ExportEntry))
    (h : analyzeFileCompact f = (Except.ok (some a), ex)) :
    a.imports.length ≤ 10 ∧ a.exports.length ≤ 10 := by
  obtain ⟨ns, a₁, hp, ht, ha⟩ := analyzeFileCompact_some h
  subst ha
  constructor
  · show ((jsDedup a₁.imports).take 10).length ≤ 10
    rw [List.length_take]
    exact Nat.min_le_left _ _
  · show (a₁.exports.take 10).length ≤ 10
    rw [List.length_take]
    exact Nat.min_le_left _ _

/-- Witness for C2's theorem at a concrete file. -/
theorem claim_c2_caps_witness :
    analyzeFileCompact capWitFile = (Except.ok (some capWitAnalysis), []) ∧
    capWitAnalysis.imports.length ≤ 10 ∧ capWitAnalysis.exports.length ≤ 10 :=
  ⟨rfl, (claim_c2_caps capWitFile capWitAnalysis [] rfl).1,
    (claim_c2_caps capWitFile capWitAnalysis [] rfl).2⟩

/-- Counterexample for C2 as frozen: the comprehensive variant's
FileRecord for a file with eleven imports has an `imports` sequence of
length 11, exceeding the claimed cap of 10. -/
theorem claim_c2_caps_counterexample :
    analyzeFile capCexFile = Except.ok (some (capCexRec, [])) ∧
    capCexRec.imports.length = 11 :=
  ⟨rfl, rfl⟩

/-- Claim C3: in the budget-aware variant, once the running token
estimate exceeds `0.8 * maxTokens` after some prefix `xs` of the
candidate list, the whole run's modules map equals the one accumulated
over `xs` (no later file acquires a FileRecord, accumulated records are
kept), and the Pattern Detector facts are still present in the final
output. -/
theorem claim_c3_budget_stop (p : Project) (now : Nat)
    (xs ys : List SourceFile)
    (hsplit : (p.relevantFiles.filter kfKeep).take 50 = xs ++ ys)
    (hthr : (kfLoop xs initKF).currentTokens > budgetThreshold) :
    (generateCompact p now).modules = (kfLoop xs initKF).modules ∧
    (generateCompact p now).patterns = detectPatterns p := by
  constructor
  · show (analyzeKeyFiles p.relevantFiles).modules = _
    unfold analyzeKeyFiles
    rw [hsplit, kfLoop_append, kfLoop_stuck ys _ hthr]
  · rfl

/-- Witness for C3's theorem: a project whose first candidate file alone
overshoots the threshold; the second file never acquires a record. -/
theorem claim_c3_budget_stop_witness :
    (kfLoop [fBig] initKF).currentTokens > budgetThreshold ∧
    (generateCompact budgetProject 0).modules = (kfLoop [fBig] initKF).modules ∧
    (generateCompact budgetProject 0).patterns = detectPatterns budgetProject :=
  ⟨bigLoopTokens,
   (claim_c3_budget_stop budgetProject 0 [fBig] [fSmall] rfl bigLoopTokens).1,
   (claim_c3_budget_stop budgetProject 0 [fBig] [fSmall] rfl bigLoopTokens).2⟩

/-- Claim C4 (amended): in the budget-aware variant every recorded import
is non-relative (sources starting with `.` or `/` are filtered out), and
every non-relative import source is recorded provided the file's distinct
non-relative sources fit the 10-entry cap; the comprehensive variant
records all import sources unfiltered. -/
theorem claim_c4_import_filter (f : SourceFile) (a : CompactAnalysis)
    (ex : List (String × ExportEntry))
    (h : analyzeFileCompact f = (Except.ok (some a), ex)) :
    (∀ s ∈ a.imports, importKeep s = true) ∧
    ((jsDedup ((compactImportSources f).filter importKeep)).length ≤ 10 →
      ∀ s ∈ compactImportSources f, importKeep s = true → s ∈ a.imports) := by
  obtain ⟨ns, a₁, hp, ht, ha⟩ := analyzeFileCompact_some h
  have himp : a₁.imports = (compactImportSources f).filter importKeep := by
    rw [compactTraverse_ok_imports ht]
    simp [initCompactAnalysis, compactImportSources, hp]
  subst ha
  constructor
  · intro s hs
    have h1 : s ∈ jsDedup a₁.imports := List.mem_of_mem_take hs
    have h2 : s ∈ a₁.imports := (mem_jsDedup _ _).mp h1
    rw [himp] at h2
    exact (List.mem_filter.mp h2).2
  · intro hlen s hs hk
    have h2 : s ∈ (compactImportSources f).filter importKeep :=
      List.mem_filter.mpr ⟨hs, hk⟩
    rw [← himp] at h2 hlen
    have h3 : s ∈ jsDedup a₁.imports := (mem_jsDedup _ _).mpr h2
    show s ∈ (jsDedup a₁.imports).take 10
    rw [List.take_of_length_le hlen]
    exact h3

/-- Witness for C4's theorem at a concrete file with duplicate, relative
and absolute imports. -/
theorem claim_c4_import_filter_witness :
    analyzeFileCompact filterWitFile = (Except.ok (some filterWitAnalysis), []) ∧
    (∀ s ∈ filterWitAnalysis.imports, importKeep s = true) ∧
    "lodash" ∈ filterWitAnalysis.imports :=
  ⟨rfl,
   (claim_c4_import_filter filterWitFile filterWitAnalysis [] rfl).1,
   (claim_c4_import_filter filterWitFile filterWitAnalysis [] rfl).2
     (by decide) "lodash" (by decide) (by decide)⟩

/-- Counterexample for C4 as frozen: the comprehensive variant's record
for a file importing `./helper` keeps the relative source. -/
theorem claim_c4_import_filter_counterexample :
    analyzeFile relCexFile = Except.ok (some (relCexRec, [])) ∧
    "./helper" ∈ relCexRec.imports ∧
    jsStartsWith "./helper" "." = true :=
  ⟨rfl, by decide, rfl⟩

/-- Claim C5 (amended): the budget-aware variant skips any file longer
than 10000 characters outright (no parse, no record); the comprehensive
variant's per-file analysis does not depend on the file's length at
all. -/
theorem claim_c5_size_skip :
    (∀ f : SourceFile, f.codeLength > 10000 →
      analyzeFileCompact f = (Except.ok none, [])) ∧
    (∀ (f : SourceFile) (n m : Nat),
      analyzeFile { f with codeLength := n } =
        analyzeFile { f with codeLength := m }) := by
  constructor
  · intro f h
    unfold analyzeFileCompact
    rw [if_pos h]
  · intro f n m
    rfl

/-- Witness for C5's theorem at a concrete oversized file. -/
theorem claim_c5_size_skip_witness :
    sizeCexFile.codeLength > 10000 ∧
    analyzeFileCompact sizeCexFile = (Except.ok none, []) :=
  ⟨by decide, claim_c5_size_skip.1 sizeCexFile (by decide)⟩

/-- Counterexample for C5 as frozen: the comprehensive variant parses a
10001-character file and produces a FileRecord for it. -/
theorem claim_c5_size_skip_counterexample :
    sizeCexFile.codeLength > 10000 ∧
    analyzeFile sizeCexFile = Except.ok (some (sizeCexRec, [])) :=
  ⟨by decide, rfl⟩

/-- Claim C6: route derivation maps `pages/blog/[slug].tsx` to
`/blog/:slug`, `app/dashboard/page.tsx` to `/dashboard` and
`pages/index.tsx` to `/`. -/
theorem claim_c6_routes :
    routeForFile "pages" "pages" "pages/blog/[slug].tsx" = some "/blog/:slug" ∧
    routeForFile "app" "app" "app/dashboard/page.tsx" = some "/dashboard" ∧
    routeForFile "pages" "pages" "pages/index.tsx" = some "/" :=
  ⟨rfl, rfl, rfl⟩

/-- Claim C7: the saved deep-detail (level4) map is the shallow merge of
the prior output's map with the current run's map, current entries taking
precedence on key collision; a missing or unparseable prior output (or a
prior output without an object `level4`) is treated as the empty map, and
`generate` still completes with exactly that merge as its `level4`. -/
theorem claim_c7_level4_merge (prior : PriorOutput)
    (current : List (String × String)) (k : String) (np : NextProject)
    (now : Nat) :
    jsGet (saveIndexLevel4 prior current) k =
      jsFirst (jsGet current k) (jsGet (loadPriorLevel4 prior) k) ∧
    loadPriorLevel4 PriorOutput.missing = [] ∧
    loadPriorLevel4 PriorOutput.unparseable = [] ∧
    (generateNext np now).level4 = saveIndexLevel4 np.priorOutput [] := by
  refine ⟨?_, rfl, rfl, rfl⟩
  unfold saveIndexLevel4 jsMerge
  exact jsGet_append current (loadPriorLevel4 prior) k

/-- Claim C8: two runs over identical filesystem state differ only in
timestamps: the budget-aware index's modules, directory records, exports
map and patterns are equal, and the comprehensive index's level-2,
level-3 and (timestamp-erased) level-1 records are equal, whatever the
two generation instants are. -/
theorem claim_c8_determinism (p : Project) (np : NextProject) (t1 t2 : Nat) :
    (generateCompact p t1).modules = (generateCompact p t2).modules ∧
    (generateCompact p t1).structureInfo = (generateCompact p t2).structureInfo ∧
    (generateCompact p t1).exportsIdx = (generateCompact p t2).exportsIdx ∧
    (generateCompact p t1).patterns = (generateCompact p t2).patterns ∧
    (generateNext np t1).level2 = (generateNext np t2).level2 ∧
    (generateNext np t1).level3 = (generateNext np t2).level3 ∧
    (generateNext np t1).level1.map (fun d => (d.1, level1NoTime d.2)) =
      (generateNext np t2).level1.map (fun d => (d.1, level1NoTime d.2)) := by
  refine ⟨rfl, rfl, rfl, rfl, rfl, rfl, ?_⟩
  show (generateLevel1 np.level1Dirs t1).map _ =
    (generateLevel1 np.level1Dirs t2).map _
  unfold generateLevel1
  rw [List.map_map, List.map_map]
  congr 1

/-- Claim C9: the budget-aware variant truncates its candidate list to 50
entries, so the output's modules map never holds more than 50
FileRecords. -/
theorem claim_c9_module_cap (p : Project) (now : Nat) :
    (generateCompact p now).modules.length ≤ 50 := by
  have h := kfLoop_modules_len ((p.relevantFiles.filter kfKeep).take 50) initKF
  have hlen : ((p.relevantFiles.filter kfKeep).take 50).length ≤ 50 := by
    rw [List.length_take]
    exact Nat.min_le_left _ _
  calc (generateCompact p now).modules.length
      = (kfLoop ((p.relevantFiles.filter kfKeep).take 50) initKF).modules.length := rfl
    _ ≤ initKF.modules.length + ((p.relevantFiles.filter kfKeep).take 50).length := h
    _ ≤ 50 := by simp only [initKF, List.length_nil, Nat.zero_add]; exact hlen

/-- Claim C10 (amended): the hook predicate applied to exactly `use`
raises a TypeError in both variants.  In the budget-aware variant an
exported function declaration named `use` makes the per-file analysis
throw, the loop's handler swallows the exception and the file yields no
FileRecord; in the comprehensive variant the same holds for function
declarations and arrow-function variables named `use`, exported or not.
(Arrow-function variables are never classified by the budget-aware
variant, so there such a file still yields a FileRecord — see the
counterexample.) -/
theorem claim_c10_use_typeerror :
    classifyFunction "use" = none ∧
    isCustomHook (some "use") = none ∧
    (∀ (f : SourceFile) (ns : List AstNode) (ps : List JsParam) (async : Bool),
      ¬ f.codeLength > 10000 → f.parseRecover = some ns →
      AstNode.funcDecl (some "use") ps async true ∈ ns →
      (analyzeFileCompact f).1 = Except.error () ∧
      ∀ st : KFState, (kfStep st f).modules = st.modules) ∧
    (∀ (f : SourceFile) (ns : List AstNode) (ps : List JsParam)
        (async exp : Bool),
      f.parseStrict = some ns →
      (AstNode.funcDecl (some "use") ps async exp ∈ ns ∨
        AstNode.arrowVar "use" ps async exp ∈ ns) →
      analyzeFile f = Except.error () ∧
      ∀ st : NextFilesState, (nextFileStep st f).level2 = st.level2) := by
  refine ⟨rfl, rfl, ?_, ?_⟩
  · intro f ns ps async hlen hp hmem
    have herr : (analyzeFileCompact f).1 = Except.error () :=
      analyzeFileCompact_error_of hlen hp
        (compactTraverse_error_of_mem f.path _
          (fun a ex => compactStep_use_error f.path a ex ps async) ns hmem
          (initCompactAnalysis f) [])
    exact ⟨herr, kfStep_of_error herr⟩
  · intro f ns ps async exp hp hmem
    have htrav : nextTraverse f.path ns emptyNextAnalysis = Except.error () := by
      rcases hmem with hmem | hmem
      · exact nextTraverse_error_of_mem f.path _
          (fun a => nextStep_use_funcDecl_error f.path a ps async exp) ns hmem
          emptyNextAnalysis
      · exact nextTraverse_error_of_mem f.path _
          (fun a => nextStep_use_arrowVar_error f.path a ps async exp) ns hmem
          emptyNextAnalysis
    have herr : analyzeFile f = Except.error () := analyzeFile_error_of hp htrav
    exact ⟨herr, nextFileStep_of_error herr⟩

/-- Witness for C10's theorem at a file declaring an exported
`function use() {}`. -/
theorem claim_c10_use_typeerror_witness :
    (analyzeFileCompact useDeclFile).1 = Except.error () ∧
    (kfStep initKF useDeclFile).modules = [] ∧
    analyzeFile useDeclFile = Except.error () :=
  ⟨(claim_c10_use_typeerror.2.2.1 useDeclFile
      [.funcDecl (some "use") [] false true] [] false
      (by decide) rfl (by decide)).1,
   (claim_c10_use_typeerror.2.2.1 useDeclFile
      [.funcDecl (some "use") [] false true] [] false
      (by decide) rfl (by decide)).2 initKF,
   (claim_c10_use_typeerror.2.2.2 useDeclFile
      [.funcDecl (some "use") [] false true] [] false true
      rfl (Or.inl (by decide))).1⟩

/-- Counterexample for C10 as frozen: in the budget-aware variant a file
whose only declaration is the arrow-function variable `const use = ...`
is not classified at all (there is no `ArrowFunctionExpression` visitor),
so the run does produce a FileRecord for it. -/
theorem claim_c10_use_typeerror_counterexample :
    (analyzeKeyFiles [useArrowFile]).modules = [("lib/use.ts", useArrowAnalysis)] := by
  have hA : analyzeFileCompact useArrowFile =
      (Except.ok (some useArrowAnalysis), []) := rfl
  have h1 : analyzeKeyFiles [useArrowFile] = kfLoop [useArrowFile] initKF := rfl
  rw [h1]
  simp only [kfLoop]
  rw [if_neg (by norm_num [initKF, budgetThreshold, maxTokens])]
  unfold kfStep
  rw [hA]
  rfl

end CodeIndex
